import Mathlib

/-!
Verification development for the ChineseChess (Xiangqi) repository.

The repository consists of a value-level data model (types.ts), a React
driver component (App) holding the game state and implementing
handleSquareClick / executeMove / makeAiMove, and two modules that the
driver imports but whose sources are not part of the repository snapshot:
utils/xiangqi (createBoardFromFEN, getLegalMoves, boardToFEN, isPosValid)
and services/geminiService (getBestMove). Those two modules are modelled
from the specification text; everything else is translated directly from
the source.

Conventions: the board is a list of 10 rows of 9 cells, row index y
(0 = the first FEN rank, Black back rank), column index x. Red sits at
high y and moves toward decreasing y.
-/

namespace ChineseChess

/-- Color enumeration from types.ts (RED plays first). -/
inductive Color where
  | RED
  | BLACK
deriving DecidableEq, Repr

/-- PieceType enumeration from types.ts. -/
inductive PieceType where
  | GENERAL
  | ADVISOR
  | ELEPHANT
  | HORSE
  | ROOK
  | CANNON
  | SOLDIER
deriving DecidableEq, Repr

/-- Piece record from types.ts. -/
structure Piece where
  type : PieceType
  color : Color
deriving DecidableEq, Repr

/-- Position record from types.ts: x is the file (0-8), y the rank index (0-9). -/
structure Position where
  x : Nat
  y : Nat
deriving DecidableEq, Repr

/-- Move record from types.ts ({from, to}); the field from is spelled fromP
because it is a reserved word in Lean. -/
structure Move where
  fromP : Position
  toP : Position
deriving DecidableEq, Repr

/-- GameStatus enumeration from types.ts. -/
inductive GameStatus where
  | PLAYING
  | CHECKMATE
  | STALEMATE
  | DRAW
deriving DecidableEq, Repr

/-- The board representation used by the App component: a 2D array indexed
board[y][x], a cell holding a piece or null. -/
abbrev BoardState : Type := List (List (Option Piece))

/-- Reading board[pos.y][pos.x]: a JavaScript out-of-range read yields
undefined, modelled by the default none. -/
def getCell (b : BoardState) (p : Position) : Option Piece :=
  (b.getD p.y []).getD p.x none

/-- Writing board[pos.y][pos.x] = v on an in-range cell (List.set, like the
JavaScript assignment on an in-range index, leaves the list unchanged only
when the index is out of range, which never happens on the 10 by 9 boards
of this program). -/
def setCell (b : BoardState) (p : Position) (v : Option Piece) : BoardState :=
  b.set p.y ((b.getD p.y []).set p.x v)

/-- Modelled from the spec: isPosValid of the absent utils/xiangqi module,
the Position invariant 0 <= x <= 8, 0 <= y <= 9 of section 3. -/
def isPosValid (p : Position) : Bool :=
  decide (p.x ≤ 8 ∧ p.y ≤ 9)

/-- A board of the shape the engine produces: 10 rows of 9 cells. -/
def WFBoard (b : BoardState) : Prop :=
  b.length = 10 ∧ ∀ r ∈ b, r.length = 9

instance : DecidablePred WFBoard := fun b => by
  unfold WFBoard
  infer_instance

/-- Every board coordinate, for iterating over the grid. -/
def allPositions : List Position :=
  (List.range 10).flatMap (fun y => (List.range 9).map (fun x => ⟨x, y⟩))

/-- Stepping a position by an integer offset, none when the result leaves
the 9 by 10 board. -/
def offsetPos (p : Position) (dx dy : Int) : Option Position :=
  let nx : Int := (p.x : Int) + dx
  let ny : Int := (p.y : Int) + dy
  if 0 ≤ nx ∧ nx ≤ 8 ∧ 0 ≤ ny ∧ ny ≤ 9 then some ⟨nx.toNat, ny.toNat⟩ else none

/-- Modelled from the spec: the 3 by 3 palace (files 3-5; in array
coordinates Red rows 7-9, Black rows 0-2). -/
def inPalace (c : Color) (p : Position) : Bool :=
  decide (3 ≤ p.x ∧ p.x ≤ 5) &&
    (match c with
     | Color.RED => decide (7 ≤ p.y)
     | Color.BLACK => decide (p.y ≤ 2))

/-- Modelled from the spec: the half of the board a color owns (the river
runs between rows 4 and 5; Red owns rows 5-9, Black rows 0-4). -/
def ownHalf (c : Color) (p : Position) : Bool :=
  match c with
  | Color.RED => decide (5 ≤ p.y)
  | Color.BLACK => decide (p.y ≤ 4)

/-- Modelled from the spec: a rook ray in direction (dx, dy): any distance
until the first occupied square, capturing it when it holds an enemy piece
(section 4.2). The fuel argument bounds the walk; 10 covers the board. -/
def rookRay (b : BoardState) (c : Color) (dx dy : Int) : Position → Nat → List Position
  | _, 0 => []
  | p, fuel + 1 =>
    match offsetPos p dx dy with
    | none => []
    | some q =>
      match getCell b q with
      | none => q :: rookRay b c dx dy q fuel
      | some piece => if piece.color ≠ c then [q] else []

/-- Modelled from the spec: the capture phase of a cannon ray, after the
screen has been passed: the first occupied square beyond the screen, and
only when it holds an enemy piece (section 4.2). -/
def cannonCaptureRay (b : BoardState) (c : Color) (dx dy : Int) : Position → Nat → List Position
  | _, 0 => []
  | p, fuel + 1 =>
    match offsetPos p dx dy with
    | none => []
    | some q =>
      match getCell b q with
      | none => cannonCaptureRay b c dx dy q fuel
      | some piece => if piece.color ≠ c then [q] else []

/-- Modelled from the spec: a cannon ray: like a rook while not capturing,
and a capture only by jumping exactly one screen piece (section 4.2). -/
def cannonRay (b : BoardState) (c : Color) (dx dy : Int) : Position → Nat → List Position
  | _, 0 => []
  | p, fuel + 1 =>
    match offsetPos p dx dy with
    | none => []
    | some q =>
      match getCell b q with
      | none => q :: cannonRay b c dx dy q fuel
      | some _ => cannonCaptureRay b c dx dy q fuel

/-- The four orthogonal directions. -/
def orthoDirs : List (Int × Int) := [(1, 0), (-1, 0), (0, 1), (0, -1)]

/-- The four diagonal directions. -/
def diagDirs : List (Int × Int) := [(1, 1), (1, -1), (-1, 1), (-1, -1)]

/-- Modelled from the spec: the pseudo-legal destination squares of a piece
standing at p, by piece type, per the per-piece rules of section 4.2
(general and advisor confined to the palace, elephant blocked by its eye
and confined to its own half, horse hobbled by the adjacent leg point,
rook and cannon as rays, soldier forward plus sideways after the river).
Squares holding a piece of the moving color are filtered out afterwards.
The flying-general facing rule is not part of generation, matching the
reference behavior described in section 9. -/
def pseudoDests (b : BoardState) (pc : Piece) (p : Position) : List Position :=
  match pc.type with
  | PieceType.GENERAL =>
    orthoDirs.filterMap (fun d =>
      match offsetPos p d.1 d.2 with
      | some q => if inPalace pc.color q then some q else none
      | none => none)
  | PieceType.ADVISOR =>
    diagDirs.filterMap (fun d =>
      match offsetPos p d.1 d.2 with
      | some q => if inPalace pc.color q then some q else none
      | none => none)
  | PieceType.ELEPHANT =>
    diagDirs.filterMap (fun d =>
      match offsetPos p d.1 d.2 with
      | none => none
      | some eye =>
        if getCell b eye = none then
          match offsetPos p (2 * d.1) (2 * d.2) with
          | some q => if ownHalf pc.color q then some q else none
          | none => none
        else none)
  | PieceType.HORSE =>
    ([((1, 2), (0, 1)), ((-1, 2), (0, 1)), ((1, -2), (0, -1)), ((-1, -2), (0, -1)),
      ((2, 1), (1, 0)), ((2, -1), (1, 0)), ((-2, 1), (-1, 0)), ((-2, -1), (-1, 0))]
        : List ((Int × Int) × (Int × Int))).filterMap (fun ⟨d, leg⟩ =>
      match offsetPos p leg.1 leg.2 with
      | none => none
      | some lp =>
        if getCell b lp = none then offsetPos p d.1 d.2 else none)
  | PieceType.ROOK =>
    orthoDirs.flatMap (fun d => rookRay b pc.color d.1 d.2 p 10)
  | PieceType.CANNON =>
    orthoDirs.flatMap (fun d => cannonRay b pc.color d.1 d.2 p 10)
  | PieceType.SOLDIER =>
    let forwardDy : Int := match pc.color with | Color.RED => -1 | Color.BLACK => 1
    let crossed : Bool := ownHalf pc.color p = false
    let fwd := offsetPos p 0 forwardDy
    let side : List (Option Position) :=
      if crossed then [offsetPos p 1 0, offsetPos p (-1) 0] else []
    (fwd :: side).filterMap id

/-- Modelled from the spec: all pseudo-legal moves of a piece at p, its
destinations minus squares occupied by the moving color. -/
def pseudoMovesFrom (b : BoardState) (pc : Piece) (p : Position) : List Move :=
  ((pseudoDests b pc p).filter (fun q =>
    match getCell b q with
    | some t => decide (t.color ≠ pc.color)
    | none => true)).map (fun q => ⟨p, q⟩)

/-- Modelled from the spec: the pseudo-legal move set of a side, the union
over its pieces of their pseudo-legal moves. -/
def getPseudoLegalMoves (b : BoardState) (c : Color) : List Move :=
  allPositions.flatMap (fun p =>
    match getCell b p with
    | some pc => if pc.color = c then pseudoMovesFrom b pc p else []
    | none => [])

/-- The board-only effect of a move as written in executeMove: the cell at
move.to is assigned the piece read at move.from, then the cell at move.from
is assigned null, in that order. -/
def moveOnBoard (b : BoardState) (m : Move) : BoardState :=
  setCell (setCell b m.toP (getCell b m.fromP)) m.fromP none

/-- The color of the other side (the ternary in executeMove). -/
def oppositeColor (c : Color) : Color :=
  match c with
  | Color.RED => Color.BLACK
  | Color.BLACK => Color.RED

/-- Modelled from the spec: the square of the general of a side, none when
no such piece is on the board. -/
def findGeneral (b : BoardState) (c : Color) : Option Position :=
  allPositions.find? (fun p => decide (getCell b p = some ⟨PieceType.GENERAL, c⟩))

/-- Modelled from the spec: isInCheck of section 4.2, true iff the square
of the general of the side appears as a destination in the opposing
pseudo-legal move set on the current board. -/
def isInCheck (b : BoardState) (c : Color) : Bool :=
  match findGeneral b c with
  | none => false
  | some g => (getPseudoLegalMoves b (oppositeColor c)).any (fun m => decide (m.toP = g))

/-- Modelled from the spec: getLegalMoves of the absent utils/xiangqi
module, per section 4.2: a pseudo-legal move is legal iff after
hypothetically applying it the moving side has its general not attacked. -/
def getLegalMoves (b : BoardState) (c : Color) : List Move :=
  (getPseudoLegalMoves b c).filter (fun m => !(isInCheck (moveOnBoard b m) c))

/-- The canonical starting encoding, the INITIAL_FEN constant of the App
component. -/
def INITIAL_FEN : String :=
  "rnbakabnr/9/1c5c1/p1p1p1p1p/9/9/P1P1P1P1P/1C5C1/9/RNBAKABNR w - - 0 1"

/-- Modelled from the spec: the one-to-one letter code of a piece type in
the encoding of section 4.1 (the letters of INITIAL_FEN and of the
PieceType values of types.ts). -/
def typeChar (t : PieceType) : Char :=
  match t with
  | PieceType.GENERAL => 'k'
  | PieceType.ADVISOR => 'a'
  | PieceType.ELEPHANT => 'b'
  | PieceType.HORSE => 'n'
  | PieceType.ROOK => 'r'
  | PieceType.CANNON => 'c'
  | PieceType.SOLDIER => 'p'

/-- Modelled from the spec: a letter of the placement field read as a
piece, uppercase Red and lowercase Black, none on an unknown letter. -/
def charToPiece (c : Char) : Option Piece :=
  let color := if c.isUpper then Color.RED else Color.BLACK
  match c.toLower with
  | 'k' => some ⟨PieceType.GENERAL, color⟩
  | 'a' => some ⟨PieceType.ADVISOR, color⟩
  | 'b' => some ⟨PieceType.ELEPHANT, color⟩
  | 'n' => some ⟨PieceType.HORSE, color⟩
  | 'r' => some ⟨PieceType.ROOK, color⟩
  | 'c' => some ⟨PieceType.CANNON, color⟩
  | 'p' => some ⟨PieceType.SOLDIER, color⟩
  | _ => none

/-- Modelled from the spec: the letter of a piece in the encoding,
uppercase for Red and lowercase for Black. -/
def pieceToChar (p : Piece) : Char :=
  match p.color with
  | Color.RED => (typeChar p.type).toUpper
  | Color.BLACK => typeChar p.type

/-- Modelled from the spec: one row of the placement field read into a row
of cells, a digit N standing for a run of N empty squares, none on an
unknown letter. -/
def parseRow : List Char → Option (List (Option Piece))
  | [] => some []
  | c :: rest => do
    let tail ← parseRow rest
    if c.isDigit then
      pure (List.replicate (c.toNat - 48) none ++ tail)
    else do
      let p ← charToPiece c
      pure (some p :: tail)

/-- Modelled from the spec: the side-to-move field, w for Red and b for
Black, none on an unknown token. -/
def parseSide : List Char → Option Color
  | ['w'] => some Color.RED
  | ['b'] => some Color.BLACK
  | _ => none

/-- Splitting a character list on a separator character, the analog of the
string split the parser performs on the space and row separators. -/
def splitOnChar (sep : Char) : List Char → List (List Char)
  | [] => [[]]
  | c :: rest =>
    let r := splitOnChar sep rest
    if c = sep then [] :: r
    else
      match r with
      | [] => [[c]]
      | h :: t => (c :: h) :: t

/-- Modelled from the spec: createFromEncoding (createBoardFromFEN of the
absent utils/xiangqi module), per section 4.1: the placement field split
on the row separator into exactly 10 rows of exactly 9 columns, a
side-to-move field, trailing fields ignored; a malformed text yields none
and never a partially populated board. -/
def createBoardFromFEN (fen : String) : Option (BoardState × Color) := do
  let fields := splitOnChar ' ' fen.toList
  let placement ← fields[0]?
  let sideStr ← fields[1]?
  let side ← parseSide sideStr
  let rows := splitOnChar '/' placement
  if rows.length = 10 then
    let b ← rows.mapM (fun r => do
      let row ← parseRow r
      if row.length = 9 then some row else none)
    pure (b, side)
  else
    none

/-- Modelled from the spec: one row of cells written out with runs of empty
squares collapsed to a digit; the accumulator counts the pending run. -/
def rowToChars : List (Option Piece) → Nat → List Char
  | [], 0 => []
  | [], n + 1 => [Char.ofNat (48 + (n + 1))]
  | none :: rest, n => rowToChars rest (n + 1)
  | some p :: rest, 0 => pieceToChar p :: rowToChars rest 0
  | some p :: rest, n + 1 => Char.ofNat (48 + (n + 1)) :: pieceToChar p :: rowToChars rest 0

/-- Joining character rows with a separator character, the analog of the
string join the serializer performs with the row separator. -/
def joinWithChar (sep : Char) : List (List Char) → List Char
  | [] => []
  | [r] => r
  | r :: rest => r ++ sep :: joinWithChar sep rest

/-- Modelled from the spec: toEncoding (boardToFEN of the absent
utils/xiangqi module): the rows joined by the separator, the side-to-move
field, and the semantically inert trailing placeholder fields that make
the starting position reproducible byte for byte. -/
def boardToFEN (b : BoardState) (turn : Color) : String :=
  String.mk (joinWithChar '/' (b.map (fun r => rowToChars r 0))
    ++ (match turn with | Color.RED => [' ', 'w'] | Color.BLACK => [' ', 'b'])
    ++ [' ', '-', ' ', '-', ' ', '0', ' ', '1'])

/-- The React state of the App component that the game logic touches. -/
structure AppState where
  board : BoardState
  turn : Color
  selectedPos : Option Position
  validDestinations : List Position
  gameStatus : GameStatus
  lastMove : Option Move
  isAiThinking : Bool
  aiError : Option String
deriving DecidableEq

/-- Translation of executeMove from the App component: an early return when
the from square is empty; otherwise the board cells at move.to and then at
move.from are written, board, lastMove, selection and destinations are
updated, and, when the captured piece is a General, the status becomes
CHECKMATE with an early return before the turn is switched; otherwise the
turn flips and the status becomes CHECKMATE when the next player has no
legal moves. -/
def executeMove (s : AppState) (move : Move) : AppState :=
  match getCell s.board move.fromP with
  | none => s
  | some _ =>
    let targetPiece := getCell s.board move.toP
    let newBoard := moveOnBoard s.board move
    let s1 : AppState :=
      { s with board := newBoard, lastMove := some move,
               selectedPos := none, validDestinations := [] }
    if targetPiece.map Piece.type = some PieceType.GENERAL then
      { s1 with gameStatus := GameStatus.CHECKMATE }
    else
      let nextTurn := oppositeColor s.turn
      let nextPlayerMoves := getLegalMoves newBoard nextTurn
      { s1 with turn := nextTurn,
                gameStatus :=
                  if nextPlayerMoves.length = 0 then GameStatus.CHECKMATE
                  else s1.gameStatus }

/-- The shared tail of handleSquareClick: attempt the move when a piece is
selected and the clicked square is among the valid destinations, else clear
the selection. -/
def clickFallthrough (s : AppState) (pos : Position) : AppState :=
  match s.selectedPos with
  | some sel =>
    if s.validDestinations.any (fun d => decide (d.x = pos.x ∧ d.y = pos.y)) then
      executeMove s ⟨sel, pos⟩
    else
      { s with selectedPos := none, validDestinations := [] }
  | none => { s with selectedPos := none, validDestinations := [] }

/-- Translation of handleSquareClick from the App component: ignored unless
the status is PLAYING, no AI request is outstanding and it is the turn of
RED; clicking an own piece selects it and computes its destinations from
the legal-move set; otherwise a selected move is executed or the selection
cleared. -/
def handleSquareClick (s : AppState) (pos : Position) : AppState :=
  if s.gameStatus ≠ GameStatus.PLAYING ∨ s.isAiThinking = true then s
  else if s.turn ≠ Color.RED then s
  else
    match getCell s.board pos with
    | some piece =>
      if piece.color = s.turn then
        let allLegalMoves := getLegalMoves s.board s.turn
        let movesForPiece :=
          (allLegalMoves.filter (fun m =>
            decide (m.fromP.x = pos.x ∧ m.fromP.y = pos.y))).map Move.toP
        { s with selectedPos := some pos, validDestinations := movesForPiece }
      else clickFallthrough s pos
    | none => clickFallthrough s pos

/-- The transient notice surfaced when the collaborator throws. -/
def aiErrMsg : String := "AI had trouble thinking. Retrying..."

/-- The outcome of the awaited getBestMove call of the absent
services/geminiService module, as observed by makeAiMove: a returned
suggestion (possibly null) or a thrown error. -/
inductive AiOutcome where
  | suggestion (m : Option Move)
  | error
deriving DecidableEq

/-- The choice legalMoves[Math.floor(Math.random() * legalMoves.length)],
with the random draw modelled by an arbitrary natural number reduced
modulo the length. -/
def randomChoice (l : List Move) (r : Nat) : Move :=
  l.getD (r % l.length) ⟨⟨0, 0⟩, ⟨0, 0⟩⟩

/-- Translation of the makeAiMove closure of the AI turn effect: thinking
is flagged and the error cleared; with no legal move the status becomes
CHECKMATE; a non-null suggestion is executed as is; a null suggestion falls
back to a random legal move; a thrown error records a notice and falls
back to a random legal move when one exists; thinking is cleared on every
path. -/
def makeAiMove (s : AppState) (outcome : AiOutcome) (r : Nat) : AppState :=
  let s0 : AppState := { s with isAiThinking := true, aiError := none }
  let legalMoves := getLegalMoves s0.board s0.turn
  if legalMoves.length = 0 then
    { s0 with gameStatus := GameStatus.CHECKMATE, isAiThinking := false }
  else
    match outcome with
    | AiOutcome.suggestion (some bestMove) =>
      { executeMove s0 bestMove with isAiThinking := false }
    | AiOutcome.suggestion none =>
      { executeMove s0 (randomChoice legalMoves r) with isAiThinking := false }
    | AiOutcome.error =>
      let s1 : AppState := { s0 with aiError := some aiErrMsg }
      let legalMoves2 := getLegalMoves s1.board s1.turn
      if legalMoves2.length > 0 then
        { executeMove s1 (randomChoice legalMoves2 r) with isAiThinking := false }
      else
        { s1 with isAiThinking := false }

/-! Concrete pieces, boards and states used by the per-claim witnesses and
counterexamples. -/

/-- The all-empty 10 by 9 board. -/
def emptyBoard : BoardState := List.replicate 10 (List.replicate 9 none)

/-- Placing a piece on a board cell. -/
def placePiece (b : BoardState) (p : Position) (pc : Piece) : BoardState :=
  setCell b p (some pc)

/-- A fresh PLAYING state over a board with the given side to move. -/
def mkState (b : BoardState) (c : Color) : AppState :=
  ⟨b, c, none, [], GameStatus.PLAYING, none, false, none⟩

/-- Board for the C1 scenarios: a red rook on an otherwise open file. -/
def c1Board : BoardState :=
  placePiece (placePiece emptyBoard ⟨0, 0⟩ ⟨PieceType.ROOK, Color.RED⟩)
    ⟨4, 9⟩ ⟨PieceType.GENERAL, Color.RED⟩

/-- State for the C1 scenarios. -/
def c1State : AppState := mkState c1Board Color.RED

/-- Board for the C2 scenarios: a red rook one step from the black general. -/
def c2Board : BoardState :=
  placePiece (placePiece (placePiece emptyBoard ⟨4, 0⟩ ⟨PieceType.GENERAL, Color.BLACK⟩)
    ⟨4, 1⟩ ⟨PieceType.ROOK, Color.RED⟩) ⟨4, 9⟩ ⟨PieceType.GENERAL, Color.RED⟩

/-- State for the C2 scenarios. -/
def c2State : AppState := mkState c2Board Color.RED

/-- The C2 counterexample move: the rook captures the black general. -/
def c2Move : Move := ⟨⟨4, 1⟩, ⟨4, 0⟩⟩

/-- Board for the C3 scenario: the black general is confined at (3, 0); a
red soldier about to step to (4, 1) will cover both of its escape squares
without attacking it. -/
def c3Board : BoardState :=
  placePiece (placePiece (placePiece emptyBoard ⟨3, 0⟩ ⟨PieceType.GENERAL, Color.BLACK⟩)
    ⟨5, 1⟩ ⟨PieceType.SOLDIER, Color.RED⟩) ⟨4, 9⟩ ⟨PieceType.GENERAL, Color.RED⟩

/-- State for the C3 scenario. -/
def c3State : AppState := mkState c3Board Color.RED

/-- The C3 move: the crossed soldier steps sideways, producing a position
where Black has no legal move and is not in check. -/
def c3Move : Move := ⟨⟨5, 1⟩, ⟨4, 1⟩⟩

/-- Board for the C4 witness: a black rook on the file of the red general. -/
def c4Board : BoardState :=
  placePiece (placePiece emptyBoard ⟨4, 9⟩ ⟨PieceType.GENERAL, Color.RED⟩)
    ⟨4, 0⟩ ⟨PieceType.ROOK, Color.BLACK⟩

/-- State for the C4 witness. -/
def c4State : AppState := mkState c4Board Color.BLACK

/-- Board for the C5 witness: two pieces away from the moved squares. -/
def c5Board : BoardState :=
  placePiece (placePiece (placePiece emptyBoard ⟨2, 2⟩ ⟨PieceType.HORSE, Color.RED⟩)
    ⟨7, 7⟩ ⟨PieceType.CANNON, Color.BLACK⟩) ⟨4, 9⟩ ⟨PieceType.GENERAL, Color.RED⟩

/-- State for the C5 witness. -/
def c5State : AppState := mkState c5Board Color.RED

/-- Board for the C6 witness: both generals, Black to move, Black has legal
moves. -/
def c6Board : BoardState :=
  placePiece (placePiece emptyBoard ⟨3, 0⟩ ⟨PieceType.GENERAL, Color.BLACK⟩)
    ⟨4, 9⟩ ⟨PieceType.GENERAL, Color.RED⟩

/-- State for the C6 witness. -/
def c6State : AppState := mkState c6Board Color.BLACK

/-- Board for the C7 scenario, same shape as the C6 one. -/
def c7Board : BoardState :=
  placePiece (placePiece emptyBoard ⟨3, 0⟩ ⟨PieceType.GENERAL, Color.BLACK⟩)
    ⟨4, 9⟩ ⟨PieceType.GENERAL, Color.RED⟩

/-- State for the C7 scenario. -/
def c7State : AppState := mkState c7Board Color.BLACK

/-- The illegal collaborator answer of the C7 scenario: the black general
jumping out of the palace to (3, 5). -/
def c7Move : Move := ⟨⟨3, 0⟩, ⟨3, 5⟩⟩

/-- State for the C8 witness: a suggestion request is outstanding. -/
def c8State : AppState :=
  ⟨emptyBoard, Color.RED, none, [], GameStatus.PLAYING, none, true, none⟩

/-- State for the C10 witness: an all-empty board. -/
def c10State : AppState := mkState emptyBoard Color.RED

/-! Helper lemmas about the board cells. -/

/-- Writing one cell leaves every other cell unchanged. -/
theorem getCell_setCell_ne (b : BoardState) (p q : Position) (v : Option Piece)
    (h : p ≠ q) : getCell (setCell b q v) p = getCell b p := by
  unfold getCell setCell
  by_cases hy : p.y = q.y
  · have hx : p.x ≠ q.x := by
      intro hx
      apply h
      cases p
      cases q
      simp_all
    rw [hy]
    by_cases hlen : q.y < b.length
    · simp only [List.getD_eq_getElem?_getD]
      rw [List.getElem?_set_self hlen]
      simp only [Option.getD_some]
      rw [List.getElem?_set_ne (Ne.symm hx)]
    · rw [List.set_eq_of_length_le (Nat.le_of_not_lt hlen)]
  · have hy2 : q.y ≠ p.y := fun hh => hy hh.symm
    simp only [List.getD_eq_getElem?_getD]
    rw [List.getElem?_set_ne hy2]

/-- Writing an in-range cell makes that cell hold the written value. -/
theorem getCell_setCell_self (b : BoardState) (q : Position) (v : Option Piece)
    (hy : q.y < b.length) (hx : q.x < (b.getD q.y []).length) :
    getCell (setCell b q v) q = v := by
  unfold getCell setCell
  simp only [List.getD_eq_getElem?_getD] at hx ⊢
  rw [List.getElem?_set_self hy]
  simp only [Option.getD_some]
  rw [List.getElem?_set_self hx]
  rfl

/-- Writing a cell preserves the 10 by 9 board shape. -/
theorem WFBoard_setCell (b : BoardState) (q : Position) (v : Option Piece)
    (hb : WFBoard b) : WFBoard (setCell b q v) := by
  obtain ⟨hlen, hrows⟩ := hb
  by_cases hy : q.y < b.length
  · refine ⟨by simpa [setCell] using hlen, ?_⟩
    intro r hr
    rcases List.mem_or_eq_of_mem_set hr with hmem | heq
    · exact hrows r hmem
    · subst heq
      rw [List.length_set]
      exact hrows _ (List.getD_eq_getElem b [] hy ▸ List.getElem_mem hy)
  · unfold setCell
    rw [List.set_eq_of_length_le (Nat.le_of_not_lt hy)]
    exact ⟨hlen, hrows⟩

/-- The row a valid position addresses on a well-formed board has 9 cells. -/
theorem row_length_of_WF (b : BoardState) (q : Position) (hb : WFBoard b)
    (hy : q.y < 10) : (b.getD q.y []).length = 9 := by
  obtain ⟨hlen, hrows⟩ := hb
  have hy2 : q.y < b.length := by omega
  exact hrows _ (List.getD_eq_getElem b [] hy2 ▸ List.getElem_mem hy2)

/-- When the from square is occupied, the board of the state executeMove
produces is the moveOnBoard update, in both status branches. -/
theorem executeMove_board (s : AppState) (m : Move) (mp : Piece)
    (h : getCell s.board m.fromP = some mp) :
    (executeMove s m).board = moveOnBoard s.board m := by
  unfold executeMove
  rw [h]
  by_cases hg : (getCell s.board m.toP).map Piece.type = some PieceType.GENERAL
  · simp [hg]
  · simp [hg]

/-- A randomly indexed element of a nonempty list is one of its members. -/
theorem randomChoice_mem (l : List Move) (r : Nat) (h : l ≠ []) :
    randomChoice l r ∈ l := by
  unfold randomChoice
  have hpos : 0 < l.length := List.length_pos.mpr h
  have hlt : r % l.length < l.length := Nat.mod_lt r hpos
  rw [List.getD_eq_getElem l _ hlt]
  exact List.getElem_mem hlt

/-! Claim theorems. -/

/-- C10: for every move whose from square is empty on the current board,
executeMove returns immediately with the entire game state, board, turn,
game status, last move and selection included, unchanged. -/
theorem executeMove_noop_on_empty_from (s : AppState) (m : Move)
    (h : getCell s.board m.fromP = none) : executeMove s m = s := by
  unfold executeMove
  rw [h]

/-- Witness for C10 at a concrete state whose board is empty. -/
theorem executeMove_noop_on_empty_from_witness :
    getCell c10State.board ⟨4, 4⟩ = none ∧
      executeMove c10State ⟨⟨4, 4⟩, ⟨4, 5⟩⟩ = c10State :=
  ⟨by decide, executeMove_noop_on_empty_from c10State ⟨⟨4, 4⟩, ⟨4, 5⟩⟩ (by decide)⟩

/-- C8: whenever a move-suggestion request is outstanding or the game
status is not PLAYING, handleSquareClick returns the state unchanged, so
board, turn, selection, valid destinations and status are all untouched. -/
theorem click_ignored_when_locked (s : AppState) (pos : Position)
    (h : s.gameStatus ≠ GameStatus.PLAYING ∨ s.isAiThinking = true) :
    handleSquareClick s pos = s := by
  unfold handleSquareClick
  rw [if_pos h]

/-- Witness for C8 at a concrete state with an outstanding AI request. -/
theorem click_ignored_when_locked_witness :
    (c8State.gameStatus ≠ GameStatus.PLAYING ∨ c8State.isAiThinking = true) ∧
      handleSquareClick c8State ⟨0, 0⟩ = c8State :=
  ⟨by decide, click_ignored_when_locked c8State ⟨0, 0⟩ (by decide)⟩

/-- C4: for every applied move whose destination square holds a General,
executeMove sets the terminal status CHECKMATE; the branch returns before
the legal-move generator is ever consulted, so the fact is independent of
it. -/
theorem general_capture_immediately_terminal (s : AppState) (m : Move) (mp tp : Piece)
    (hf : getCell s.board m.fromP = some mp)
    (ht : getCell s.board m.toP = some tp)
    (hg : tp.type = PieceType.GENERAL) :
    (executeMove s m).gameStatus = GameStatus.CHECKMATE := by
  unfold executeMove
  rw [hf]
  simp [ht, hg]

/-- Witness for C4: a black rook captures the red general. -/
theorem general_capture_immediately_terminal_witness :
    (getCell c4State.board ⟨4, 0⟩ = some ⟨PieceType.ROOK, Color.BLACK⟩ ∧
      getCell c4State.board ⟨4, 9⟩ = some ⟨PieceType.GENERAL, Color.RED⟩) ∧
    (executeMove c4State ⟨⟨4, 0⟩, ⟨4, 9⟩⟩).gameStatus = GameStatus.CHECKMATE :=
  ⟨⟨by decide, by decide⟩,
    general_capture_immediately_terminal c4State ⟨⟨4, 0⟩, ⟨4, 9⟩⟩
      ⟨PieceType.ROOK, Color.BLACK⟩ ⟨PieceType.GENERAL, Color.RED⟩
      (by decide) (by decide) rfl⟩

/-- C5: executeMove builds its result as a new board value (the embedding
is pure, so the input board value is untouched by construction), and every
square other than move.from and move.to holds in the new board exactly the
piece, or emptiness, it held before. -/
theorem executeMove_frame (s : AppState) (m : Move) (p : Position)
    (hf : p ≠ m.fromP) (ht : p ≠ m.toP) :
    getCell (executeMove s m).board p = getCell s.board p := by
  cases hmp : getCell s.board m.fromP with
  | none =>
    unfold executeMove
    rw [hmp]
  | some mp =>
    rw [executeMove_board s m mp hmp]
    unfold moveOnBoard
    rw [getCell_setCell_ne _ _ _ _ hf, getCell_setCell_ne _ _ _ _ ht]

/-- Witness for C5: an occupied square away from the move keeps its piece. -/
theorem executeMove_frame_witness :
    ((⟨7, 7⟩ : Position) ≠ ⟨2, 2⟩ ∧ (⟨7, 7⟩ : Position) ≠ ⟨3, 4⟩) ∧
      getCell (executeMove c5State ⟨⟨2, 2⟩, ⟨3, 4⟩⟩).board ⟨7, 7⟩ =
        getCell c5State.board ⟨7, 7⟩ :=
  ⟨⟨by decide, by decide⟩,
    executeMove_frame c5State ⟨⟨2, 2⟩, ⟨3, 4⟩⟩ ⟨7, 7⟩ (by decide) (by decide)⟩

/-- Counterexample to C1 as stated: a move with an occupied from square but
with from equal to to makes the piece vanish, because the write of null to
move.from happens after the write of the piece to move.to; the moving piece
does not occupy move.to afterwards. -/
theorem same_square_move_loses_piece :
    getCell c1State.board ⟨0, 0⟩ = some ⟨PieceType.ROOK, Color.RED⟩ ∧
      getCell (executeMove c1State ⟨⟨0, 0⟩, ⟨0, 0⟩⟩).board ⟨0, 0⟩ = none := by
  decide

/-- C1 (amended): for every well-formed board and every move with valid,
distinct squares whose from square is occupied, executeMove puts the moving
piece on move.to and empties move.from; whatever stood on move.to is gone,
and no field of the state records it. -/
theorem executeMove_relocates_piece (s : AppState) (m : Move) (mp : Piece)
    (hwf : WFBoard s.board) (hfv : isPosValid m.fromP = true)
    (htv : isPosValid m.toP = true) (hne : m.fromP ≠ m.toP)
    (h : getCell s.board m.fromP = some mp) :
    getCell (executeMove s m).board m.toP = some mp ∧
      getCell (executeMove s m).board m.fromP = none := by
  rw [executeMove_board s m mp h]
  unfold moveOnBoard
  rw [h]
  obtain ⟨hfx, hfy⟩ : m.fromP.x ≤ 8 ∧ m.fromP.y ≤ 9 := by simpa [isPosValid] using hfv
  obtain ⟨htx, hty⟩ : m.toP.x ≤ 8 ∧ m.toP.y ≤ 9 := by simpa [isPosValid] using htv
  have hlen : s.board.length = 10 := hwf.1
  have hwf2 : WFBoard (setCell s.board m.toP (some mp)) := WFBoard_setCell _ _ _ hwf
  have hlen2 : (setCell s.board m.toP (some mp)).length = 10 := hwf2.1
  constructor
  · rw [getCell_setCell_ne _ _ _ _ (Ne.symm hne)]
    exact getCell_setCell_self _ _ _ (by omega)
      (by rw [row_length_of_WF s.board m.toP hwf (by omega)]; omega)
  · exact getCell_setCell_self _ _ _ (by omega)
      (by rw [row_length_of_WF _ m.fromP hwf2 (by omega)]; omega)

/-- Witness for the amended C1: the rook moves down its file. -/
theorem executeMove_relocates_piece_witness :
    (WFBoard c1State.board ∧ isPosValid ⟨0, 0⟩ = true ∧ isPosValid ⟨0, 5⟩ = true ∧
      (⟨0, 0⟩ : Position) ≠ ⟨0, 5⟩ ∧
      getCell c1State.board ⟨0, 0⟩ = some ⟨PieceType.ROOK, Color.RED⟩) ∧
    getCell (executeMove c1State ⟨⟨0, 0⟩, ⟨0, 5⟩⟩).board ⟨0, 5⟩ =
        some ⟨PieceType.ROOK, Color.RED⟩ ∧
      getCell (executeMove c1State ⟨⟨0, 0⟩, ⟨0, 5⟩⟩).board ⟨0, 0⟩ = none :=
  ⟨⟨by decide, by decide, by decide, by decide, by decide⟩,
    executeMove_relocates_piece c1State ⟨⟨0, 0⟩, ⟨0, 5⟩⟩ ⟨PieceType.ROOK, Color.RED⟩
      (by decide) (by decide) (by decide) (by decide) (by decide)⟩

/-- Counterexample to C2 as stated: a move that captures the black general
is applied (the board does change) and yet the side to move stays RED, so
the turn does not alternate after this applied move. -/
theorem turn_not_alternating_on_general_capture :
    getCell c2State.board c2Move.fromP = some ⟨PieceType.ROOK, Color.RED⟩ ∧
      getCell (executeMove c2State c2Move).board c2Move.toP =
        some ⟨PieceType.ROOK, Color.RED⟩ ∧
      c2State.turn = Color.RED ∧
      (executeMove c2State c2Move).turn = Color.RED ∧
      oppositeColor Color.RED ≠ Color.RED := by
  decide

/-- C2 (amended): after every applied move the side to move flips to the
opposite color, except when the captured piece is a General: then the
status becomes terminal and the side to move is left unchanged. -/
theorem executeMove_turn_alternates (s : AppState) (m : Move) (mp : Piece)
    (h : getCell s.board m.fromP = some mp) :
    ((getCell s.board m.toP).map Piece.type ≠ some PieceType.GENERAL →
        (executeMove s m).turn = oppositeColor s.turn) ∧
    ((getCell s.board m.toP).map Piece.type = some PieceType.GENERAL →
        (executeMove s m).turn = s.turn ∧
          (executeMove s m).gameStatus = GameStatus.CHECKMATE) := by
  unfold executeMove
  rw [h]
  constructor
  · intro hg
    simp [hg]
  · intro hg
    simp [hg]

/-- Witness for the amended C2: a non-capturing rook move flips the turn. -/
theorem executeMove_turn_alternates_witness :
    (getCell c2State.board ⟨4, 1⟩ = some ⟨PieceType.ROOK, Color.RED⟩ ∧
      (getCell c2State.board ⟨3, 1⟩).map Piece.type ≠ some PieceType.GENERAL) ∧
    (executeMove c2State ⟨⟨4, 1⟩, ⟨3, 1⟩⟩).turn = oppositeColor c2State.turn :=
  ⟨⟨by decide, by decide⟩,
    (executeMove_turn_alternates c2State ⟨⟨4, 1⟩, ⟨3, 1⟩⟩ ⟨PieceType.ROOK, Color.RED⟩
      (by decide)).1 (by decide)⟩

/-- Counterexample to C3 as stated: after the soldier move the side to move
(Black) has an empty legal-move set and is not in check, yet the resulting
status is CHECKMATE and not STALEMATE. -/
theorem stalemate_position_reported_as_checkmate :
    getLegalMoves (moveOnBoard c3State.board c3Move) Color.BLACK = [] ∧
      isInCheck (moveOnBoard c3State.board c3Move) Color.BLACK = false ∧
      (executeMove c3State c3Move).turn = Color.BLACK ∧
      (executeMove c3State c3Move).gameStatus = GameStatus.CHECKMATE ∧
      (executeMove c3State c3Move).gameStatus ≠ GameStatus.STALEMATE := by
  decide

/-- C3 (amended): when an applied non-capture-of-General move leaves the
opponent with an empty legal-move set, the status becomes CHECKMATE whether
or not the opponent is in check; STALEMATE is never produced. -/
theorem empty_legal_moves_give_checkmate (s : AppState) (m : Move) (mp : Piece)
    (h : getCell s.board m.fromP = some mp)
    (hg : (getCell s.board m.toP).map Piece.type ≠ some PieceType.GENERAL)
    (hempty : getLegalMoves (moveOnBoard s.board m) (oppositeColor s.turn) = []) :
    (executeMove s m).gameStatus = GameStatus.CHECKMATE := by
  unfold executeMove
  rw [h]
  simp [hg, hempty]

/-- Witness for the amended C3 at the concrete stalemate-like position. -/
theorem empty_legal_moves_give_checkmate_witness :
    (getCell c3State.board c3Move.fromP = some ⟨PieceType.SOLDIER, Color.RED⟩ ∧
      (getCell c3State.board c3Move.toP).map Piece.type ≠ some PieceType.GENERAL ∧
      getLegalMoves (moveOnBoard c3State.board c3Move) (oppositeColor c3State.turn) = []) ∧
    (executeMove c3State c3Move).gameStatus = GameStatus.CHECKMATE :=
  ⟨⟨by decide, by decide, by decide⟩,
    empty_legal_moves_give_checkmate c3State c3Move ⟨PieceType.SOLDIER, Color.RED⟩
      (by decide) (by decide) (by decide)⟩

/-- C6: whenever the collaborator returns nothing or throws and the side to
move has a nonempty legal-move set, makeAiMove applies a move that is a
member of the precomputed legal-move set (the random draw is modelled by an
arbitrary index, so this holds for every outcome of the draw). -/
theorem ai_fallback_applies_legal_move (s : AppState) (r : Nat)
    (h : getLegalMoves s.board s.turn ≠ []) :
    (∃ mv ∈ getLegalMoves s.board s.turn,
        makeAiMove s (AiOutcome.suggestion none) r =
          { (executeMove { s with isAiThinking := true, aiError := none } mv) with
              isAiThinking := false }) ∧
    (∃ mv ∈ getLegalMoves s.board s.turn,
        makeAiMove s AiOutcome.error r =
          { (executeMove { s with isAiThinking := true, aiError := some aiErrMsg } mv) with
              isAiThinking := false }) := by
  have hcond : ¬ ((getLegalMoves s.board s.turn).length = 0) := by
    simpa [List.length_eq_zero] using h
  have hpos : 0 < (getLegalMoves s.board s.turn).length :=
    Nat.pos_of_ne_zero hcond
  constructor
  · refine ⟨randomChoice (getLegalMoves s.board s.turn) r,
      randomChoice_mem _ _ h, ?_⟩
    unfold makeAiMove
    rw [if_neg hcond]
  · refine ⟨randomChoice (getLegalMoves s.board s.turn) r,
      randomChoice_mem _ _ h, ?_⟩
    unfold makeAiMove
    rw [if_neg hcond, if_pos hpos]

/-- Witness for C6 at a concrete position where Black has legal moves. -/
theorem ai_fallback_applies_legal_move_witness :
    getLegalMoves c6State.board c6State.turn ≠ [] ∧
    ((∃ mv ∈ getLegalMoves c6State.board c6State.turn,
        makeAiMove c6State (AiOutcome.suggestion none) 0 =
          { (executeMove { c6State with isAiThinking := true, aiError := none } mv) with
              isAiThinking := false }) ∧
     (∃ mv ∈ getLegalMoves c6State.board c6State.turn,
        makeAiMove c6State AiOutcome.error 0 =
          { (executeMove { c6State with isAiThinking := true, aiError := some aiErrMsg } mv) with
              isAiThinking := false })) :=
  ⟨by decide, ai_fallback_applies_legal_move c6State 0 (by decide)⟩

/-- C7 is violated by the code: makeAiMove applies any non-null collaborator
answer without checking membership in the legal-move set. Here the answer
moves the black general from (3, 0) to (3, 5), far outside the palace; the
move is not in the legal-move set, the set is nonempty, and yet the board
after makeAiMove has the general on (3, 5). -/
theorem unvalidated_suggestion_applied :
    c7Move ∉ getLegalMoves c7State.board c7State.turn ∧
      getLegalMoves c7State.board c7State.turn ≠ [] ∧
      getCell (makeAiMove c7State (AiOutcome.suggestion (some c7Move)) 0).board ⟨3, 5⟩ =
        some ⟨PieceType.GENERAL, Color.BLACK⟩ ∧
      getCell (makeAiMove c7State (AiOutcome.suggestion (some c7Move)) 0).board ⟨3, 0⟩ =
        none := by
  decide

/-- C9: parsing the canonical starting encoding yields Red to move, and
re-serializing the parsed board and side reproduces the text byte for
byte. -/
theorem initial_fen_round_trip :
    ∃ b : BoardState, createBoardFromFEN INITIAL_FEN = some (b, Color.RED) ∧
      boardToFEN b Color.RED = INITIAL_FEN := by
  refine ⟨((createBoardFromFEN INITIAL_FEN).getD (emptyBoard, Color.RED)).1, ?_, ?_⟩ <;>
    decide

end ChineseChess
